import Mathlib

/-!
Shallow embedding of the mesh-sculpting core of the mvpv2 viewer
(src/components/SimpleViewer.tsx and its duplicate in the unnamed part):
the four brush tools (Move, Sculpt, Smooth, Pinch) of the sculptMesh
function, the reset operation resetMesh, the load path processLoadedModel,
and the vertex-normal recomputation computeVertexNormals of the underlying
3D library (three.js).  Scalars are modelled as real numbers; the library
vector and matrix operations used by the source are embedded one by one.
-/

namespace Sculpt

/-- A 3D vector, as the library's Vector3. -/
@[ext]
structure Vec3 where
  x : ℝ
  y : ℝ
  z : ℝ

/-- A 2D vector, as the library's Vector2 (used for mouse coordinates). -/
@[ext]
structure Vec2 where
  x : ℝ
  y : ℝ

/-- The zero vector. -/
def vzero : Vec3 := ⟨0, 0, 0⟩

/-- Vector3.add, componentwise. -/
def vadd (a b : Vec3) : Vec3 := ⟨a.x + b.x, a.y + b.y, a.z + b.z⟩

/-- Vector3.sub, componentwise. -/
def vsub (a b : Vec3) : Vec3 := ⟨a.x - b.x, a.y - b.y, a.z - b.z⟩

/-- Vector3.multiplyScalar. -/
def smul (t : ℝ) (a : Vec3) : Vec3 := ⟨t * a.x, t * a.y, t * a.z⟩

/-- Vector3.addScaledVector: v plus w scaled by s, componentwise. -/
def addScaledVector (v w : Vec3) (s : ℝ) : Vec3 :=
  ⟨v.x + w.x * s, v.y + w.y * s, v.z + w.z * s⟩

/-- Vector3.lerp toward c with factor t.  The library applies the factor
as written, with no clamping. -/
def lerpVec (v c : Vec3) (t : ℝ) : Vec3 :=
  ⟨v.x + (c.x - v.x) * t, v.y + (c.y - v.y) * t, v.z + (c.z - v.z) * t⟩

/-- Vector3.cross. -/
def crossVec (a b : Vec3) : Vec3 :=
  ⟨a.y * b.z - a.z * b.y, a.z * b.x - a.x * b.z, a.x * b.y - a.y * b.x⟩

/-- Vector3.length: the Euclidean norm. -/
noncomputable def vlength (v : Vec3) : ℝ :=
  Real.sqrt (v.x ^ 2 + v.y ^ 2 + v.z ^ 2)

/-- Vector3.distanceTo: Euclidean distance. -/
noncomputable def distV (a b : Vec3) : ℝ := vlength (vsub a b)

/-- Vector3.normalize: the library divides by the length, guarding a zero
length by dividing by 1 instead (divideScalar of length-or-1), so the zero
vector normalizes to itself. -/
noncomputable def normalizeVec (v : Vec3) : Vec3 :=
  if vlength v = 0 then v else smul (1 / vlength v) v

/-- The linear (upper-left 3 by 3) block of a transform matrix. -/
structure Mat3 where
  m00 : ℝ
  m01 : ℝ
  m02 : ℝ
  m10 : ℝ
  m11 : ℝ
  m12 : ℝ
  m20 : ℝ
  m21 : ℝ
  m22 : ℝ

/-- Apply a 3 by 3 matrix to a vector. -/
def mat3Apply (m : Mat3) (v : Vec3) : Vec3 :=
  ⟨m.m00 * v.x + m.m01 * v.y + m.m02 * v.z,
   m.m10 * v.x + m.m11 * v.y + m.m12 * v.z,
   m.m20 * v.x + m.m21 * v.y + m.m22 * v.z⟩

/-- A three.js Matrix4 whose bottom row is 0 0 0 1, as produced for mesh
world transforms and their inverses: a linear block plus a translation. -/
structure Mat4 where
  linear : Mat3
  trans : Vec3

/-- Vector3.applyMatrix4 for an affine matrix: the full point transform,
linear block plus translation. -/
def applyMat4Point (m : Mat4) (v : Vec3) : Vec3 :=
  vadd (mat3Apply m.linear v) m.trans

/-- Vector3.transformDirection: applies only the upper 3 by 3 block (no
translation component) and then normalizes the result. -/
noncomputable def transformDirection (m : Mat4) (v : Vec3) : Vec3 :=
  normalizeVec (mat3Apply m.linear v)

/-- The identity linear block. -/
def mat3Id : Mat3 := ⟨1, 0, 0, 0, 1, 0, 0, 0, 1⟩

/-- The identity transform. -/
def mat4Id : Mat4 := ⟨mat3Id, vzero⟩

/-- The four sculpting tools of SimpleViewer.tsx. -/
inductive Tool where
  | MOVE
  | SCULPT
  | SMOOTH
  | PINCH
deriving DecidableEq

/-- The inputs of one sculptMesh call: brush size and strength, the active
tool, the inverse of the mesh's matrixWorld (computed by the source right
before the vertex loop), the world-space contact point, the optional face
normal at the intersection, and the current and previous mouse samples
(normalized device coordinates) used by the Move tool. -/
structure SculptParams where
  brushSize : ℝ
  brushStrength : ℝ
  tool : Tool
  inverseMatrix : Mat4
  point : Vec3
  normal : Option Vec3
  mouse : Vec2
  lastMouse : Vec2

/-- The contact point transformed into the mesh's local space:
point.clone().applyMatrix4(inverseMatrix) in the source. -/
noncomputable def localContact (p : SculptParams) : Vec3 :=
  applyMat4Point p.inverseMatrix p.point

/-- The body of the per-vertex loop of sculptMesh: given the parameters of
the call and the current local position of one vertex, the position written
back by posAttr.setXYZ.  A vertex at distance at least brushSize from the
local contact point falls outside the if and keeps its position; otherwise
the falloff is 1 - dist / brushSize and the active tool's case runs. -/
noncomputable def displaceVertex (p : SculptParams) (v : Vec3) : Vec3 :=
  let localPoint := localContact p
  let d := distV v localPoint
  if d < p.brushSize then
    let falloff := 1 - d / p.brushSize
    match p.tool with
    | Tool.SCULPT =>
      match p.normal with
      | some n =>
        addScaledVector v (transformDirection p.inverseMatrix n)
          (p.brushStrength * falloff * 0.01)
      | none => v
    | Tool.SMOOTH => lerpVec v localPoint (p.brushStrength * falloff * 0.01)
    | Tool.PINCH =>
      addScaledVector v (vsub localPoint v) (p.brushStrength * falloff * 0.01)
    | Tool.MOVE =>
      let moveFactor := p.brushStrength * falloff * 0.02
      ⟨v.x + (p.mouse.x - p.lastMouse.x) * moveFactor,
       v.y - (p.mouse.y - p.lastMouse.y) * moveFactor,
       v.z⟩
  else v

/-- One triangle of the index buffer: three vertex indices. -/
abbrev Tri := Nat × Nat × Nat

/-- The face-normal contribution of one triangle, as in the library's
computeVertexNormals: cb = pC - pB crossed with ab = pA - pB (an
area-weighted, unnormalized face normal).  Out-of-range indices read the
zero vector. -/
def faceNormalContrib (ps : List Vec3) (t : Tri) : Vec3 :=
  let pA := ps.getD t.1 vzero
  let pB := ps.getD t.2.1 vzero
  let pC := ps.getD t.2.2 vzero
  crossVec (vsub pC pB) (vsub pA pB)

/-- Accumulate one triangle's face normal onto its three vertices. -/
def accumFace (ps : List Vec3) (ns : List Vec3) (t : Tri) : List Vec3 :=
  let fn := faceNormalContrib ps t
  let ns1 := ns.set t.1 (vadd (ns.getD t.1 vzero) fn)
  let ns2 := ns1.set t.2.1 (vadd (ns1.getD t.2.1 vzero) fn)
  ns2.set t.2.2 (vadd (ns2.getD t.2.2 vzero) fn)

/-- BufferGeometry.computeVertexNormals for an indexed geometry: start from
zero normals, add each face's unnormalized normal to its three vertices,
then normalize every vertex normal. -/
noncomputable def computeVertexNormals (ps : List Vec3) (ts : List Tri) : List Vec3 :=
  (ts.foldl (accumFace ps) (List.replicate ps.length vzero)).map normalizeVec

/-- The mesh data held by the viewer: the position attribute, the snapshot
originalVertices captured at load, the derived normal attribute, and the
index buffer (triangle connectivity). -/
structure MeshState where
  positions : List Vec3
  originalPositions : List Vec3
  normals : List Vec3
  triangles : List Tri

/-- The result of one sculptMesh call: the updated mesh data, and the new
lastMousePosition stored by setLastMousePosition at the end of the call. -/
structure SculptResult where
  mesh : MeshState
  lastMouse : Vec2

/-- The whole sculptMesh call: every vertex runs the per-vertex loop body,
then computeVertexNormals refreshes the normal attribute from the updated
positions, and the current mouse sample is stored as lastMousePosition. -/
noncomputable def sculptMesh (p : SculptParams) (s : MeshState) : SculptResult :=
  let newPositions := s.positions.map (displaceVertex p)
  { mesh :=
      { s with
        positions := newPositions
        normals := computeVertexNormals newPositions s.triangles }
    lastMouse := p.mouse }

/-- resetMesh: copy originalVertices back over the position attribute and
recompute the vertex normals. -/
noncomputable def resetMesh (s : MeshState) : MeshState :=
  { s with
    positions := s.originalPositions
    normals := computeVertexNormals s.originalPositions s.triangles }

/-- The mesh-data part of processLoadedModel: computeVertexNormals runs on
the loaded geometry and originalVertices is captured as a fresh copy
(new Float32Array) of the position attribute.  No structural validation of
the positions or of the triangle indices is performed. -/
noncomputable def processLoadedModel (ps : List Vec3) (ts : List Tri) : MeshState :=
  { positions := ps
    originalPositions := ps
    normals := computeVertexNormals ps ts
    triangles := ts }

/-- Load errors of the specified Mesh Store. -/
inductive LoadError where
  | invalidMesh
deriving DecidableEq

/-- Whether one triangle's indices are all in range. -/
def triIndexOK (n : Nat) (t : Tri) : Bool :=
  decide (t.1 < n) && decide (t.2.1 < n) && decide (t.2.2 < n)

/-- Modelled from the spec: the Mesh Store load operation, which is absent
from the source as an operation of its own — load "fails with
InvalidMeshError if positions is empty or any triangle index is out of
range", and otherwise captures originalPositions and replaces the data.
Used only to compare the source's load path against the specified one. -/
noncomputable def load_spec (ps : List Vec3) (ts : List Tri) :
    Except LoadError MeshState :=
  if ps.isEmpty || ts.any (fun t => !(triIndexOK ps.length t)) then
    Except.error LoadError.invalidMesh
  else
    Except.ok (processLoadedModel ps ts)

/-- Modelled from the spec: the Smooth step as specified — the lerp factor
strength * falloff (with the source's 0.01 damping constant) is clamped
into the unit interval before interpolating.  Used only to compare the
source's Smooth case against the specified one. -/
noncomputable def smoothStep_spec (p : SculptParams) (v : Vec3) : Vec3 :=
  let localPoint := localContact p
  let d := distV v localPoint
  if d < p.brushSize then
    let falloff := 1 - d / p.brushSize
    lerpVec v localPoint (min 1 (max 0 (p.brushStrength * falloff * 0.01)))
  else v

/-- Modelled from the spec: the Move step as specified — the cursor delta
is "converted into the mesh's local axes" (the world-to-local direction
transform, with the source's 0.02 damping constant) before being added to
the vertex.  Used only to compare the source's Move case against the
specified one. -/
noncomputable def moveStep_spec (p : SculptParams) (v : Vec3) : Vec3 :=
  let localPoint := localContact p
  let d := distV v localPoint
  if d < p.brushSize then
    let falloff := 1 - d / p.brushSize
    let localDelta :=
      mat3Apply p.inverseMatrix.linear
        ⟨p.mouse.x - p.lastMouse.x, p.mouse.y - p.lastMouse.y, 0⟩
    vadd v (smul (p.brushStrength * falloff * 0.02) localDelta)
  else v

/-! ## General lemmas about the embedded vector operations -/

theorem sqrt_eval (x a : ℝ) (ha : 0 ≤ a) (h : x = a ^ 2) : Real.sqrt x = a := by
  rw [h]
  exact Real.sqrt_sq ha

theorem vlength_nonneg (v : Vec3) : 0 ≤ vlength v := Real.sqrt_nonneg _

theorem distV_nonneg (a b : Vec3) : 0 ≤ distV a b := Real.sqrt_nonneg _

theorem vlength_smul (t : ℝ) (v : Vec3) : vlength (smul t v) = |t| * vlength v := by
  unfold vlength smul
  dsimp only
  rw [show (t * v.x) ^ 2 + (t * v.y) ^ 2 + (t * v.z) ^ 2
        = t ^ 2 * (v.x ^ 2 + v.y ^ 2 + v.z ^ 2) by ring]
  rw [Real.sqrt_mul (sq_nonneg t), Real.sqrt_sq_eq_abs]

theorem distV_symm (a b : Vec3) : distV a b = distV b a := by
  unfold distV vlength vsub
  dsimp only
  congr 1
  ring

theorem lerp_sub (v c : Vec3) (t : ℝ) :
    vsub (lerpVec v c t) v = smul t (vsub c v) := by
  ext <;> simp [lerpVec, vsub, smul] <;> ring

theorem addScaled_sub (v w : Vec3) (s : ℝ) :
    vsub (addScaledVector v w s) v = smul s w := by
  ext <;> simp [addScaledVector, vsub, smul] <;> ring

/-- A single-vertex mesh used to instantiate the theorems below. -/
def locMesh : MeshState :=
  { positions := [⟨2, 0, 0⟩]
    originalPositions := [⟨2, 0, 0⟩]
    normals := []
    triangles := [] }

/-- Concrete brush parameters: radius 1, strength 5, identity transform,
contact point at the origin. -/
def locParams : SculptParams :=
  { brushSize := 1
    brushStrength := 5
    tool := Tool.SCULPT
    inverseMatrix := mat4Id
    point := vzero
    normal := some ⟨0, 0, 1⟩
    mouse := ⟨0, 0⟩
    lastMouse := ⟨0, 0⟩ }

theorem locParams_contact : localContact locParams = ⟨0, 0, 0⟩ := by
  simp [localContact, locParams, applyMat4Point, mat4Id, mat3Id, mat3Apply, vzero, vadd]

/-! ## C2: locality of apply -/

/-- C2: for every tool and every apply call, a vertex whose local-space
distance to the contact point is at least the brush radius keeps its
position: the source's per-vertex loop only writes inside
the `dist < brushSize` branch. -/
theorem apply_locality (p : SculptParams) (s : MeshState) (i : ℕ)
    (hi : i < s.positions.length)
    (hi2 : i < (sculptMesh p s).mesh.positions.length)
    (hfar : p.brushSize ≤ distV (s.positions.get ⟨i, hi⟩) (localContact p)) :
    (sculptMesh p s).mesh.positions.get ⟨i, hi2⟩ = s.positions.get ⟨i, hi⟩ := by
  have hmap : (sculptMesh p s).mesh.positions = s.positions.map (displaceVertex p) := rfl
  have h1 : (sculptMesh p s).mesh.positions.get ⟨i, hi2⟩
      = displaceVertex p (s.positions.get ⟨i, hi⟩) := by
    rw [List.get_eq_getElem, List.get_eq_getElem]
    simp only [hmap]
    rw [List.getElem_map]
  rw [h1]
  simp only [displaceVertex]
  rw [if_neg (not_lt.mpr hfar)]

/-- Concrete instance of C2: a single-vertex mesh with the vertex at
distance 2 from the contact point and brush radius 1 is untouched. -/
theorem apply_locality_witness :
    locParams.brushSize ≤ distV (locMesh.positions.get ⟨0, by decide⟩) (localContact locParams) ∧
    (sculptMesh locParams locMesh).mesh.positions.get ⟨0, by decide⟩
      = locMesh.positions.get ⟨0, by decide⟩ := by
  have hfar : locParams.brushSize
      ≤ distV (locMesh.positions.get ⟨0, by decide⟩) (localContact locParams) := by
    rw [locParams_contact]
    show (1 : ℝ) ≤ distV ⟨2, 0, 0⟩ ⟨0, 0, 0⟩
    have h2 : distV ⟨2, 0, 0⟩ ⟨0, 0, 0⟩ = 2 := by
      unfold distV vlength vsub
      exact sqrt_eval _ 2 (by norm_num) (by norm_num)
    rw [h2]
    norm_num
  exact ⟨hfar, apply_locality locParams locMesh 0 (by decide) (by decide) hfar⟩

/-! ## C10: Pinch and Smooth compute the same update -/

/-- C10: the Pinch case (addScaledVector toward the local contact point)
and the Smooth case (lerp toward the local contact point) of the source
compute exactly the same new position for every vertex, both moving it by
the fraction strength * falloff * 0.01 of its offset to the contact
point. -/
theorem pinch_smooth_equiv (p : SculptParams) (v : Vec3) :
    displaceVertex { p with tool := Tool.PINCH } v
      = displaceVertex { p with tool := Tool.SMOOTH } v ∧
    (distV v (localContact p) < p.brushSize →
      displaceVertex { p with tool := Tool.PINCH } v
        = vadd v (smul (p.brushStrength
            * (1 - distV v (localContact p) / p.brushSize) * 0.01)
            (vsub (localContact p) v))) := by
  have hl1 : localContact { p with tool := Tool.PINCH } = localContact p := rfl
  have hl2 : localContact { p with tool := Tool.SMOOTH } = localContact p := rfl
  constructor
  · simp only [displaceVertex, hl1, hl2]
    by_cases h : distV v (localContact p) < p.brushSize
    · simp only [if_pos h]
      ext <;> simp [addScaledVector, lerpVec, vsub]
    · simp only [if_neg h]
  · intro h
    simp only [displaceVertex, hl1, hl2]
    simp only [if_pos h]
    ext <;> simp [addScaledVector, vadd, smul, vsub] <;> ring

/-- Concrete instance of C10 at a vertex inside the brush radius. -/
theorem pinch_smooth_equiv_witness :
    displaceVertex { locParams with tool := Tool.PINCH } ⟨1/2, 0, 0⟩
      = displaceVertex { locParams with tool := Tool.SMOOTH } ⟨1/2, 0, 0⟩ ∧
    (distV ⟨1/2, 0, 0⟩ (localContact locParams) < locParams.brushSize ∧
      displaceVertex { locParams with tool := Tool.PINCH } ⟨1/2, 0, 0⟩
        = vadd ⟨1/2, 0, 0⟩ (smul (locParams.brushStrength
            * (1 - distV ⟨1/2, 0, 0⟩ (localContact locParams) / locParams.brushSize) * 0.01)
            (vsub (localContact locParams) ⟨1/2, 0, 0⟩))) := by
  have hin : distV ⟨1/2, 0, 0⟩ (localContact locParams) < locParams.brushSize := by
    have hc : localContact locParams = ⟨0, 0, 0⟩ := by
      simp [localContact, locParams, applyMat4Point, mat4Id, mat3Id, mat3Apply, vzero, vadd]
    rw [hc]
    show distV ⟨1/2, 0, 0⟩ ⟨0, 0, 0⟩ < (1 : ℝ)
    have : distV ⟨(1:ℝ)/2, 0, 0⟩ ⟨0, 0, 0⟩ = 1/2 := by
      unfold distV vlength vsub
      exact sqrt_eval _ (1/2) (by norm_num) (by norm_num)
    rw [this]
    norm_num
  exact ⟨(pinch_smooth_equiv locParams _).1,
    hin, (pinch_smooth_equiv locParams _).2 hin⟩

/-! ## Further concrete-evaluation helpers -/

theorem distV_half : distV ⟨(1:ℝ)/2, 0, 0⟩ ⟨0, 0, 0⟩ = 1/2 := by
  unfold distV vlength vsub
  exact sqrt_eval _ (1/2) (by norm_num) (by norm_num)

theorem normalizeVec_unitZ : normalizeVec ⟨0, 0, 1⟩ = ⟨0, 0, 1⟩ := by
  have h1 : vlength ⟨0, 0, 1⟩ = 1 := by
    unfold vlength
    exact sqrt_eval _ 1 (by norm_num) (by norm_num)
  unfold normalizeVec
  rw [h1]
  simp [smul]

theorem map_fixpoints {α : Type} {f : α → α} (h : ∀ v, f v = v) (l : List α) :
    l.map f = l := by
  induction l with
  | nil => rfl
  | cons a t ih => simp [h a, ih]

/-! ## C1: the Sculpt tool -/

/-- C1: the Sculpt case transforms the supplied surface normal with
transformDirection of the inverse world matrix — only the linear block, no
translation component, followed by normalization — and displaces every
vertex inside the brush radius by that direction scaled by
strength * falloff and the damping constant 0.01.  The direction term does
not depend on the vertex, so the single contact-point normal is applied
uniformly to all affected vertices. -/
theorem sculpt_uniform_contact_normal (p : SculptParams) (n : Vec3)
    (htool : p.tool = Tool.SCULPT) (hn : p.normal = some n)
    (v : Vec3) (hin : distV v (localContact p) < p.brushSize) :
    displaceVertex p v
      = vadd v (smul (p.brushStrength
          * (1 - distV v (localContact p) / p.brushSize) * 0.01)
          (normalizeVec (mat3Apply p.inverseMatrix.linear n))) := by
  simp only [displaceVertex, htool, hn]
  simp only [if_pos hin]
  simp only [transformDirection]
  ext <;> simp [addScaledVector, vadd, smul] <;> ring

/-- Concrete instance of C1: identity transform, contact at the origin,
normal pointing along z, a vertex at distance one half. -/
theorem sculpt_uniform_contact_normal_witness :
    locParams.tool = Tool.SCULPT ∧ locParams.normal = some ⟨0, 0, 1⟩ ∧
    distV ⟨1/2, 0, 0⟩ (localContact locParams) < locParams.brushSize ∧
    displaceVertex locParams ⟨1/2, 0, 0⟩
      = vadd ⟨1/2, 0, 0⟩ (smul (locParams.brushStrength
          * (1 - distV ⟨1/2, 0, 0⟩ (localContact locParams) / locParams.brushSize) * 0.01)
          (normalizeVec (mat3Apply locParams.inverseMatrix.linear ⟨0, 0, 1⟩))) := by
  have hin : distV ⟨1/2, 0, 0⟩ (localContact locParams) < locParams.brushSize := by
    rw [locParams_contact]
    show distV ⟨1/2, 0, 0⟩ ⟨0, 0, 0⟩ < (1 : ℝ)
    rw [distV_half]
    norm_num
  exact ⟨rfl, rfl, hin,
    sculpt_uniform_contact_normal locParams ⟨0, 0, 1⟩ rfl rfl _ hin⟩

/-! ## C7: reset idempotence -/

/-- C7: resetMesh copies the originalPositions snapshot back into the
position attribute and recomputes the normals from it; it is idempotent on
the whole mesh state, and the positions after one reset are exactly the
snapshot captured at load. -/
theorem reset_idempotent (s : MeshState) :
    resetMesh (resetMesh s) = resetMesh s ∧
    (resetMesh s).positions = s.originalPositions ∧
    (resetMesh s).normals = computeVertexNormals s.originalPositions s.triangles :=
  ⟨rfl, rfl, rfl⟩

/-! ## C8: normal freshness -/

/-- C8: after any sculptMesh call the normal attribute equals the normals
recomputed from the post-displacement positions and the (unchanged)
triangle connectivity — the source calls computeVertexNormals after the
vertex loop on every call, so a subsequent normal query never observes the
pre-displacement normals. -/
theorem normals_fresh (p : SculptParams) (s : MeshState) :
    (sculptMesh p s).mesh.normals
      = computeVertexNormals (sculptMesh p s).mesh.positions
          (sculptMesh p s).mesh.triangles ∧
    (sculptMesh p s).mesh.triangles = s.triangles :=
  ⟨rfl, rfl⟩

/-! ## C9: load-time validation -/

/-- C9 counterexample: loading an empty position list together with a
triangle whose indices are all out of range succeeds in the source —
processLoadedModel performs the load and captures originalPositions —
whereas the specified load fails with InvalidMeshError and performs no
mutation. -/
theorem load_validation_cex :
    processLoadedModel [] [(0, 1, 2)]
      = { positions := [], originalPositions := [], normals := [],
          triangles := [(0, 1, 2)] } ∧
    load_spec [] [(0, 1, 2)] = Except.error LoadError.invalidMesh := by
  constructor
  · rfl
  · rfl

/-- C9 amended: processLoadedModel replaces the mesh data, captures
originalPositions as a copy of the supplied positions and derives the
normals, but performs no structural validation: every input, including an
empty position list or out-of-range triangle indices, is loaded without
any error being raised. -/
theorem load_no_validation_amended (ps : List Vec3) (ts : List Tri) :
    (processLoadedModel ps ts).positions = ps ∧
    (processLoadedModel ps ts).originalPositions = ps ∧
    (processLoadedModel ps ts).normals = computeVertexNormals ps ts ∧
    (processLoadedModel ps ts).triangles = ts :=
  ⟨rfl, rfl, rfl, rfl⟩

/-! ## C5: no-op guarantees -/

/-- Brush parameters with a negative strength, used to refute the claimed
no-op for non-positive strength. -/
def negParams : SculptParams :=
  { brushSize := 1
    brushStrength := -1
    tool := Tool.SCULPT
    inverseMatrix := mat4Id
    point := vzero
    normal := some ⟨0, 0, 1⟩
    mouse := ⟨0, 0⟩
    lastMouse := ⟨0, 0⟩ }

/-- A single-vertex mesh with the vertex inside the brush radius. -/
noncomputable def negMesh : MeshState :=
  { positions := [⟨1/2, 0, 0⟩]
    originalPositions := [⟨1/2, 0, 0⟩]
    normals := []
    triangles := [] }

theorem negParams_contact : localContact negParams = ⟨0, 0, 0⟩ := by
  simp [localContact, negParams, applyMat4Point, mat4Id, mat3Id, mat3Apply, vzero, vadd]

theorem negParams_displace :
    displaceVertex negParams ⟨1/2, 0, 0⟩ = ⟨1/2, 0, -(1/200)⟩ := by
  have hdir : transformDirection negParams.inverseMatrix ⟨0, 0, 1⟩ = ⟨0, 0, 1⟩ := by
    show transformDirection mat4Id ⟨0, 0, 1⟩ = ⟨0, 0, 1⟩
    unfold transformDirection
    have h1 : mat3Apply mat4Id.linear ⟨0, 0, 1⟩ = ⟨0, 0, 1⟩ := by
      simp [mat3Apply, mat4Id, mat3Id]
    rw [h1]
    exact normalizeVec_unitZ
  simp only [displaceVertex, negParams_contact]
  rw [distV_half]
  rw [if_pos (by norm_num [negParams] : (1:ℝ)/2 < negParams.brushSize)]
  simp only [show negParams.tool = Tool.SCULPT from rfl,
    show negParams.normal = some ⟨0, 0, 1⟩ from rfl]
  rw [hdir]
  ext <;> norm_num [addScaledVector, negParams]

/-- C5 counterexample: apply with strength -1 (which is ≤ 0) and the Sculpt
tool moves a vertex inside the brush radius, so apply with non-positive
strength is not a guaranteed no-op. -/
theorem strength_noop_cex :
    negParams.brushStrength ≤ 0 ∧
    (sculptMesh negParams negMesh).mesh.positions ≠ negMesh.positions := by
  constructor
  · show (-1 : ℝ) ≤ 0
    norm_num
  · intro hEq
    have hlist : (sculptMesh negParams negMesh).mesh.positions
        = [displaceVertex negParams ⟨1/2, 0, 0⟩] := rfl
    rw [hlist] at hEq
    have h0 : displaceVertex negParams ⟨1/2, 0, 0⟩ = ⟨1/2, 0, 0⟩ := by
      injection hEq
    rw [negParams_displace] at h0
    have hz := congrArg Vec3.z h0
    norm_num at hz

/-- C5 amended: apply with non-positive radius, or with strength exactly
zero, or with the Sculpt tool and no surface normal, leaves every vertex
position unchanged; the embedding is a total function, so none of these
cases raises an error.  (A strictly negative strength is not a no-op — see
the counterexample.) -/
theorem apply_noop_amended (p : SculptParams) (s : MeshState) :
    (p.brushSize ≤ 0 → (sculptMesh p s).mesh.positions = s.positions) ∧
    (p.brushStrength = 0 → (sculptMesh p s).mesh.positions = s.positions) ∧
    (p.tool = Tool.SCULPT → p.normal = none →
      (sculptMesh p s).mesh.positions = s.positions) := by
  have hmesh : ∀ (h : ∀ v, displaceVertex p v = v),
      (sculptMesh p s).mesh.positions = s.positions := by
    intro h
    show s.positions.map (displaceVertex p) = s.positions
    exact map_fixpoints h s.positions
  refine ⟨fun hr => hmesh ?_, fun hs0 => hmesh ?_, fun ht hn => hmesh ?_⟩
  · intro v
    simp only [displaceVertex]
    rw [if_neg (not_lt.mpr (le_trans hr (distV_nonneg _ _)))]
  · intro v
    simp only [displaceVertex, hs0]
    by_cases h : distV v (localContact p) < p.brushSize
    · simp only [if_pos h]
      cases htool : p.tool with
      | SCULPT =>
        cases hn : p.normal with
        | some n => ext <;> simp [addScaledVector]
        | none => rfl
      | SMOOTH => ext <;> simp [lerpVec]
      | PINCH => ext <;> simp [addScaledVector]
      | MOVE => ext <;> simp
    · simp only [if_neg h]
  · intro v
    simp only [displaceVertex, ht, hn]
    by_cases h : distV v (localContact p) < p.brushSize
    · simp only [if_pos h]
    · simp only [if_neg h]

/-- Brush parameters triggering all three amended no-op cases at once:
radius 0, strength 0, Sculpt with no normal. -/
def noopParams : SculptParams :=
  { brushSize := 0
    brushStrength := 0
    tool := Tool.SCULPT
    inverseMatrix := mat4Id
    point := vzero
    normal := none
    mouse := ⟨0, 0⟩
    lastMouse := ⟨0, 0⟩ }

/-- Concrete instance of C5 (amended): the no-op cases hold on a concrete
mesh. -/
theorem apply_noop_amended_witness :
    (sculptMesh noopParams locMesh).mesh.positions = locMesh.positions ∧
    noopParams.brushSize ≤ 0 ∧ noopParams.brushStrength = 0 ∧
    noopParams.tool = Tool.SCULPT ∧ noopParams.normal = none := by
  have h1 : noopParams.brushSize ≤ 0 := by norm_num [noopParams]
  exact ⟨(apply_noop_amended noopParams locMesh).1 h1, h1, rfl, rfl, rfl⟩

/-! ## More evaluation helpers -/

theorem distV_xaxis (a : ℝ) (ha : 0 ≤ a) : distV ⟨a, 0, 0⟩ ⟨0, 0, 0⟩ = a := by
  show Real.sqrt ((a - 0) ^ 2 + ((0:ℝ) - 0) ^ 2 + ((0:ℝ) - 0) ^ 2) = a
  exact sqrt_eval _ a ha (by ring)

theorem vlength_xaxis (a : ℝ) : vlength ⟨a, 0, 0⟩ = |a| := by
  show Real.sqrt (a ^ 2 + (0:ℝ) ^ 2 + (0:ℝ) ^ 2) = |a|
  rw [show a ^ 2 + (0:ℝ) ^ 2 + (0:ℝ) ^ 2 = a ^ 2 by ring, Real.sqrt_sq_eq_abs]

theorem vsub_self (v : Vec3) : vsub v v = ⟨0, 0, 0⟩ := by
  ext <;> simp [vsub]

theorem vlength_vzero : vlength ⟨0, 0, 0⟩ = 0 := by
  show Real.sqrt ((0:ℝ) ^ 2 + (0:ℝ) ^ 2 + (0:ℝ) ^ 2) = 0
  rw [show ((0:ℝ) ^ 2 + (0:ℝ) ^ 2 + (0:ℝ) ^ 2) = 0 by ring, Real.sqrt_zero]

/-- The Smooth case inside the brush radius displaces by the fraction
strength * falloff * 0.01 of the offset to the local contact point. -/
theorem smooth_disp (p : SculptParams) (v : Vec3) (htool : p.tool = Tool.SMOOTH)
    (hin : distV v (localContact p) < p.brushSize) :
    vsub (displaceVertex p v) v
      = smul (p.brushStrength * (1 - distV v (localContact p) / p.brushSize) * 0.01)
          (vsub (localContact p) v) := by
  simp only [displaceVertex, htool]
  rw [if_pos hin]
  exact lerp_sub _ _ _

/-- The Pinch case inside the brush radius displaces by the fraction
strength * falloff * 0.01 of the offset to the local contact point. -/
theorem pinch_disp (p : SculptParams) (v : Vec3) (htool : p.tool = Tool.PINCH)
    (hin : distV v (localContact p) < p.brushSize) :
    vsub (displaceVertex p v) v
      = smul (p.brushStrength * (1 - distV v (localContact p) / p.brushSize) * 0.01)
          (vsub (localContact p) v) := by
  simp only [displaceVertex, htool]
  rw [if_pos hin]
  exact addScaled_sub _ _ _

/-- The Sculpt case inside the brush radius displaces along the transformed
contact-point normal, scaled by strength * falloff * 0.01. -/
theorem sculpt_disp (p : SculptParams) (v : Vec3) (n : Vec3)
    (htool : p.tool = Tool.SCULPT) (hn : p.normal = some n)
    (hin : distV v (localContact p) < p.brushSize) :
    vsub (displaceVertex p v) v
      = smul (p.brushStrength * (1 - distV v (localContact p) / p.brushSize) * 0.01)
          (transformDirection p.inverseMatrix n) := by
  simp only [displaceVertex, htool, hn]
  rw [if_pos hin]
  exact addScaled_sub _ _ _

/-! ## C4: Smooth clamping -/

/-- Smooth brush of strength 300, whose lerp factor at distance one half is
1.5, above the unit interval. -/
def bigParams : SculptParams :=
  { brushSize := 1
    brushStrength := 300
    tool := Tool.SMOOTH
    inverseMatrix := mat4Id
    point := vzero
    normal := none
    mouse := ⟨0, 0⟩
    lastMouse := ⟨0, 0⟩ }

theorem bigParams_contact : localContact bigParams = ⟨0, 0, 0⟩ := by
  simp [localContact, bigParams, applyMat4Point, mat4Id, mat3Id, mat3Apply, vzero, vadd]

/-- C4 counterexample: with strength 300 the source's Smooth case applies
the lerp factor 1.5 unclamped, carrying the vertex at (1/2, 0, 0) to
(-1/4, 0, 0) — past the contact point at the origin — while the specified
clamped interpolation stops at the contact point; so the factor is not
clamped into the unit interval and a positive strength can move a vertex
past the contact point. -/
theorem smooth_clamp_cex :
    displaceVertex bigParams ⟨1/2, 0, 0⟩ = ⟨-(1/4), 0, 0⟩ ∧
    smoothStep_spec bigParams ⟨1/2, 0, 0⟩ = ⟨0, 0, 0⟩ ∧
    displaceVertex bigParams ⟨1/2, 0, 0⟩ ≠ smoothStep_spec bigParams ⟨1/2, 0, 0⟩ := by
  have h1 : displaceVertex bigParams ⟨1/2, 0, 0⟩ = ⟨-(1/4), 0, 0⟩ := by
    simp only [displaceVertex, bigParams_contact]
    rw [distV_half]
    rw [if_pos (by norm_num [bigParams] : (1:ℝ)/2 < bigParams.brushSize)]
    simp only [show bigParams.tool = Tool.SMOOTH from rfl]
    ext <;> norm_num [lerpVec, bigParams]
  have h2 : smoothStep_spec bigParams ⟨1/2, 0, 0⟩ = ⟨0, 0, 0⟩ := by
    simp only [smoothStep_spec, bigParams_contact]
    rw [distV_half]
    rw [if_pos (by norm_num [bigParams] : (1:ℝ)/2 < bigParams.brushSize)]
    ext <;> norm_num [lerpVec, bigParams]
  refine ⟨h1, h2, ?_⟩
  rw [h1, h2]
  intro hEq
  have hx := congrArg Vec3.x hEq
  norm_num at hx

/-- C4 amended: the Smooth case is lerp toward the local contact point with
factor strength * falloff * 0.01 applied as written, with no clamping; the
new offset from the contact point is always the fraction 1 - factor of the
old offset, and whenever the factor lies in the unit interval a single
application does not move the vertex past (nor farther from) the contact
point. -/
theorem smooth_lerp_amended (p : SculptParams) (v : Vec3)
    (htool : p.tool = Tool.SMOOTH)
    (hin : distV v (localContact p) < p.brushSize) :
    displaceVertex p v
      = lerpVec v (localContact p)
          (p.brushStrength * (1 - distV v (localContact p) / p.brushSize) * 0.01) ∧
    vsub (displaceVertex p v) (localContact p)
      = smul (1 - p.brushStrength * (1 - distV v (localContact p) / p.brushSize) * 0.01)
          (vsub v (localContact p)) ∧
    (0 ≤ p.brushStrength * (1 - distV v (localContact p) / p.brushSize) * 0.01 →
      p.brushStrength * (1 - distV v (localContact p) / p.brushSize) * 0.01 ≤ 1 →
      distV (displaceVertex p v) (localContact p) ≤ distV v (localContact p)) := by
  have h1 : displaceVertex p v
      = lerpVec v (localContact p)
          (p.brushStrength * (1 - distV v (localContact p) / p.brushSize) * 0.01) := by
    simp only [displaceVertex, htool]
    rw [if_pos hin]
  have h2 : vsub (displaceVertex p v) (localContact p)
      = smul (1 - p.brushStrength * (1 - distV v (localContact p) / p.brushSize) * 0.01)
          (vsub v (localContact p)) := by
    rw [h1]
    ext <;> simp [lerpVec, vsub, smul] <;> ring
  refine ⟨h1, h2, ?_⟩
  intro hf0 hf1
  have habs : |1 - p.brushStrength * (1 - distV v (localContact p) / p.brushSize) * 0.01| ≤ 1 :=
    abs_le.mpr ⟨by linarith, by linarith⟩
  calc distV (displaceVertex p v) (localContact p)
      = vlength (vsub (displaceVertex p v) (localContact p)) := rfl
    _ = |1 - p.brushStrength * (1 - distV v (localContact p) / p.brushSize) * 0.01|
          * vlength (vsub v (localContact p)) := by rw [h2, vlength_smul]
    _ ≤ 1 * vlength (vsub v (localContact p)) :=
        mul_le_mul_of_nonneg_right habs (vlength_nonneg _)
    _ = distV v (localContact p) := one_mul _

/-- Smooth brush of strength 5, whose lerp factor stays inside the unit
interval. -/
def smParams : SculptParams :=
  { brushSize := 1
    brushStrength := 5
    tool := Tool.SMOOTH
    inverseMatrix := mat4Id
    point := vzero
    normal := none
    mouse := ⟨0, 0⟩
    lastMouse := ⟨0, 0⟩ }

theorem smParams_contact : localContact smParams = ⟨0, 0, 0⟩ := by
  simp [localContact, smParams, applyMat4Point, mat4Id, mat3Id, mat3Apply, vzero, vadd]

/-- Concrete instance of C4 (amended) at strength 5 and distance one
half. -/
theorem smooth_lerp_amended_witness :
    smParams.tool = Tool.SMOOTH ∧
    distV ⟨1/2, 0, 0⟩ (localContact smParams) < smParams.brushSize ∧
    0 ≤ smParams.brushStrength
        * (1 - distV ⟨1/2, 0, 0⟩ (localContact smParams) / smParams.brushSize) * 0.01 ∧
    distV (displaceVertex smParams ⟨1/2, 0, 0⟩) (localContact smParams)
      ≤ distV ⟨1/2, 0, 0⟩ (localContact smParams) := by
  have hin : distV ⟨1/2, 0, 0⟩ (localContact smParams) < smParams.brushSize := by
    rw [smParams_contact, distV_half]
    norm_num [smParams]
  have hf0 : 0 ≤ smParams.brushStrength
      * (1 - distV ⟨1/2, 0, 0⟩ (localContact smParams) / smParams.brushSize) * 0.01 := by
    rw [smParams_contact, distV_half]
    norm_num [smParams]
  have hf1 : smParams.brushStrength
      * (1 - distV ⟨1/2, 0, 0⟩ (localContact smParams) / smParams.brushSize) * 0.01 ≤ 1 := by
    rw [smParams_contact, distV_half]
    norm_num [smParams]
  exact ⟨rfl, hin, hf0,
    (smooth_lerp_amended smParams ⟨1/2, 0, 0⟩ rfl hin).2.2 hf0 hf1⟩

/-! ## C3: falloff monotonicity -/

/-- Smooth brush of strength 1 at the origin with radius 1. -/
def monoParams : SculptParams :=
  { brushSize := 1
    brushStrength := 1
    tool := Tool.SMOOTH
    inverseMatrix := mat4Id
    point := vzero
    normal := none
    mouse := ⟨0, 0⟩
    lastMouse := ⟨0, 0⟩ }

theorem monoParams_contact : localContact monoParams = ⟨0, 0, 0⟩ := by
  simp [localContact, monoParams, applyMat4Point, mat4Id, mat3Id, mat3Apply, vzero, vadd]

/-- C3 counterexample: with the Smooth tool at strength 1 and radius 1, the
vertex at distance 1/10 moves by 9/10000 while the vertex at distance 1/2
moves by 25/10000, so the displacement magnitude at the smaller distance is
strictly below that at the larger one — the Smooth (and identical Pinch)
magnitude d * (1 - d/r) is not monotone below the radius. -/
theorem falloff_monotonicity_cex :
    distV ⟨1/10, 0, 0⟩ (localContact monoParams)
      < distV ⟨1/2, 0, 0⟩ (localContact monoParams) ∧
    distV ⟨1/2, 0, 0⟩ (localContact monoParams) < monoParams.brushSize ∧
    vlength (vsub (displaceVertex monoParams ⟨1/10, 0, 0⟩) ⟨1/10, 0, 0⟩)
      < vlength (vsub (displaceVertex monoParams ⟨1/2, 0, 0⟩) ⟨1/2, 0, 0⟩) := by
  have hd1 : distV ⟨(1:ℝ)/10, 0, 0⟩ ⟨0, 0, 0⟩ = 1/10 := distV_xaxis _ (by norm_num)
  have hd2 : distV ⟨(1:ℝ)/2, 0, 0⟩ ⟨0, 0, 0⟩ = 1/2 := distV_xaxis _ (by norm_num)
  refine ⟨?_, ?_, ?_⟩
  · rw [monoParams_contact, hd1, hd2]
    norm_num
  · rw [monoParams_contact, hd2]
    norm_num [monoParams]
  · have e1 : displaceVertex monoParams ⟨1/10, 0, 0⟩ = ⟨991/10000, 0, 0⟩ := by
      simp only [displaceVertex, monoParams_contact]
      rw [hd1]
      rw [if_pos (by norm_num [monoParams] : (1:ℝ)/10 < monoParams.brushSize)]
      simp only [show monoParams.tool = Tool.SMOOTH from rfl]
      ext <;> norm_num [lerpVec, monoParams]
    have e2 : displaceVertex monoParams ⟨1/2, 0, 0⟩ = ⟨199/400, 0, 0⟩ := by
      simp only [displaceVertex, monoParams_contact]
      rw [hd2]
      rw [if_pos (by norm_num [monoParams] : (1:ℝ)/2 < monoParams.brushSize)]
      simp only [show monoParams.tool = Tool.SMOOTH from rfl]
      ext <;> norm_num [lerpVec, monoParams]
    have s1 : vsub (⟨991/10000, 0, 0⟩ : Vec3) ⟨1/10, 0, 0⟩ = ⟨-(9/10000), 0, 0⟩ := by
      ext <;> norm_num [vsub]
    have s2 : vsub (⟨199/400, 0, 0⟩ : Vec3) ⟨1/2, 0, 0⟩ = ⟨-(1/400), 0, 0⟩ := by
      ext <;> norm_num [vsub]
    rw [e1, e2, s1, s2, vlength_xaxis, vlength_xaxis]
    rw [abs_of_nonpos (by norm_num), abs_of_nonpos (by norm_num)]
    norm_num

/-- The map d to (1 - d/r) * d is nonincreasing on the outer half of the
brush radius. -/
theorem falloff_outer_mono (r d1 d2 : ℝ) (hhalf : r / 2 ≤ d1)
    (h12 : d1 ≤ d2) (h2 : d2 < r) :
    (1 - d2 / r) * d2 ≤ (1 - d1 / r) * d1 := by
  have hr : 0 < r := by linarith
  have key : 0 ≤ (d2 - d1) * (d1 + d2 - r) := mul_nonneg (by linarith) (by linarith)
  have expand : ∀ d : ℝ, (1 - d / r) * d = (d * r - d * d) / r := by
    intro d
    field_simp
    ring
  rw [expand, expand]
  rw [div_le_div_iff₀ hr hr]
  nlinarith [mul_nonneg hr.le key]

/-- C3 amended: the monotone-falloff property holds as claimed for the
Sculpt tool (its displacement magnitude is strength * falloff * damping
times a fixed direction length); for Smooth and Pinch the displacement
magnitude is strength * 0.01 * d * (1 - d/radius), which is nonincreasing
only on the outer half of the radius, d at least radius/2 (it increases on
the inner half — see the counterexample).  At distance at least the radius
(in particular exactly at it) the vertex is unchanged, so the displacement
there is exactly zero. -/
theorem falloff_monotonicity_amended (p : SculptParams) (v1 v2 : Vec3)
    (hs : 0 ≤ p.brushStrength) :
    (p.tool = Tool.SCULPT →
      distV v1 (localContact p) ≤ distV v2 (localContact p) →
      distV v2 (localContact p) < p.brushSize →
      vlength (vsub (displaceVertex p v2) v2)
        ≤ vlength (vsub (displaceVertex p v1) v1)) ∧
    ((p.tool = Tool.SMOOTH ∨ p.tool = Tool.PINCH) →
      p.brushSize / 2 ≤ distV v1 (localContact p) →
      distV v1 (localContact p) ≤ distV v2 (localContact p) →
      distV v2 (localContact p) < p.brushSize →
      vlength (vsub (displaceVertex p v2) v2)
        ≤ vlength (vsub (displaceVertex p v1) v1)) ∧
    (p.brushSize ≤ distV v1 (localContact p) → displaceVertex p v1 = v1) := by
  refine ⟨?_, ?_, ?_⟩
  · intro htool h12 h2
    have h0 : 0 ≤ distV v1 (localContact p) := distV_nonneg _ _
    have hr : 0 < p.brushSize := lt_of_le_of_lt (le_trans h0 h12) h2
    have h1in : distV v1 (localContact p) < p.brushSize := lt_of_le_of_lt h12 h2
    have hq1 : distV v1 (localContact p) / p.brushSize < 1 := (div_lt_one hr).mpr h1in
    have hq2 : distV v2 (localContact p) / p.brushSize < 1 := (div_lt_one hr).mpr h2
    have hk1 : 0 ≤ p.brushStrength
        * (1 - distV v1 (localContact p) / p.brushSize) * 0.01 := by nlinarith
    have hk2 : 0 ≤ p.brushStrength
        * (1 - distV v2 (localContact p) / p.brushSize) * 0.01 := by nlinarith
    cases hn : p.normal with
    | none =>
      have e1 : displaceVertex p v1 = v1 := by
        simp only [displaceVertex, htool, hn]
        rw [if_pos h1in]
      have e2 : displaceVertex p v2 = v2 := by
        simp only [displaceVertex, htool, hn]
        rw [if_pos h2]
      rw [e1, e2, vsub_self, vsub_self, vlength_vzero]
    | some n =>
      rw [sculpt_disp p v1 n htool hn h1in, sculpt_disp p v2 n htool hn h2,
        vlength_smul, vlength_smul, abs_of_nonneg hk1, abs_of_nonneg hk2]
      have hq12 : distV v1 (localContact p) / p.brushSize
          ≤ distV v2 (localContact p) / p.brushSize :=
        (div_le_div_iff_of_pos_right hr).mpr h12
      have hf : p.brushStrength * (1 - distV v2 (localContact p) / p.brushSize) * 0.01
          ≤ p.brushStrength * (1 - distV v1 (localContact p) / p.brushSize) * 0.01 := by
        nlinarith [mul_nonneg hs (sub_nonneg.mpr hq12)]
      exact mul_le_mul_of_nonneg_right hf (vlength_nonneg _)
  · intro htool hhalf h12 h2
    have h0 : 0 ≤ distV v1 (localContact p) := distV_nonneg _ _
    have hr : 0 < p.brushSize := lt_of_le_of_lt (le_trans h0 h12) h2
    have h1in : distV v1 (localContact p) < p.brushSize := lt_of_le_of_lt h12 h2
    have hq1 : distV v1 (localContact p) / p.brushSize < 1 := (div_lt_one hr).mpr h1in
    have hq2 : distV v2 (localContact p) / p.brushSize < 1 := (div_lt_one hr).mpr h2
    have hk1 : 0 ≤ p.brushStrength
        * (1 - distV v1 (localContact p) / p.brushSize) * 0.01 := by nlinarith
    have hk2 : 0 ≤ p.brushStrength
        * (1 - distV v2 (localContact p) / p.brushSize) * 0.01 := by nlinarith
    have e1 : vsub (displaceVertex p v1) v1
        = smul (p.brushStrength * (1 - distV v1 (localContact p) / p.brushSize) * 0.01)
            (vsub (localContact p) v1) := by
      rcases htool with h | h
      · exact smooth_disp p v1 h h1in
      · exact pinch_disp p v1 h h1in
    have e2 : vsub (displaceVertex p v2) v2
        = smul (p.brushStrength * (1 - distV v2 (localContact p) / p.brushSize) * 0.01)
            (vsub (localContact p) v2) := by
      rcases htool with h | h
      · exact smooth_disp p v2 h h2
      · exact pinch_disp p v2 h h2
    have hvc1 : vlength (vsub (localContact p) v1) = distV v1 (localContact p) :=
      distV_symm (localContact p) v1
    have hvc2 : vlength (vsub (localContact p) v2) = distV v2 (localContact p) :=
      distV_symm (localContact p) v2
    rw [e1, e2, vlength_smul, vlength_smul, abs_of_nonneg hk1, abs_of_nonneg hk2,
      hvc1, hvc2]
    have base := falloff_outer_mono p.brushSize (distV v1 (localContact p))
      (distV v2 (localContact p)) hhalf h12 h2
    nlinarith [mul_le_mul_of_nonneg_left base hs]
  · intro hfar
    simp only [displaceVertex]
    rw [if_neg (not_lt.mpr hfar)]

/-- Concrete instance of C3 (amended) on the outer half of the radius:
Smooth displacement magnitude at distance 9/10 is at most that at 3/4. -/
theorem falloff_monotonicity_amended_witness :
    0 ≤ smParams.brushStrength ∧
    smParams.brushSize / 2 ≤ distV ⟨3/4, 0, 0⟩ (localContact smParams) ∧
    distV ⟨3/4, 0, 0⟩ (localContact smParams)
      ≤ distV ⟨9/10, 0, 0⟩ (localContact smParams) ∧
    distV ⟨9/10, 0, 0⟩ (localContact smParams) < smParams.brushSize ∧
    vlength (vsub (displaceVertex smParams ⟨9/10, 0, 0⟩) ⟨9/10, 0, 0⟩)
      ≤ vlength (vsub (displaceVertex smParams ⟨3/4, 0, 0⟩) ⟨3/4, 0, 0⟩) := by
  have hd1 : distV ⟨(3:ℝ)/4, 0, 0⟩ ⟨0, 0, 0⟩ = 3/4 := distV_xaxis _ (by norm_num)
  have hd2 : distV ⟨(9:ℝ)/10, 0, 0⟩ ⟨0, 0, 0⟩ = 9/10 := distV_xaxis _ (by norm_num)
  have hs : (0:ℝ) ≤ smParams.brushStrength := by norm_num [smParams]
  have hhalf : smParams.brushSize / 2 ≤ distV ⟨3/4, 0, 0⟩ (localContact smParams) := by
    rw [smParams_contact, hd1]
    norm_num [smParams]
  have h12 : distV ⟨3/4, 0, 0⟩ (localContact smParams)
      ≤ distV ⟨9/10, 0, 0⟩ (localContact smParams) := by
    rw [smParams_contact, hd1, hd2]
    norm_num
  have h2 : distV ⟨9/10, 0, 0⟩ (localContact smParams) < smParams.brushSize := by
    rw [smParams_contact, hd2]
    norm_num [smParams]
  exact ⟨hs, hhalf, h12, h2,
    (falloff_monotonicity_amended smParams ⟨3/4, 0, 0⟩ ⟨9/10, 0, 0⟩ hs).2.1
      (Or.inl rfl) hhalf h12 h2⟩

/-! ## C6: the Move tool -/

/-- Move brush on a mesh whose world transform (hence its inverse) is a
quarter-turn rotation about the z axis, with a unit cursor delta along
x. -/
def rotParams : SculptParams :=
  { brushSize := 1
    brushStrength := 1
    tool := Tool.MOVE
    inverseMatrix := { linear := ⟨0, -1, 0, 1, 0, 0, 0, 0, 1⟩, trans := vzero }
    point := vzero
    normal := none
    mouse := ⟨1, 0⟩
    lastMouse := ⟨0, 0⟩ }

theorem rotParams_contact : localContact rotParams = ⟨0, 0, 0⟩ := by
  simp [localContact, rotParams, applyMat4Point, mat3Apply, vzero, vadd]

theorem distV_origin : distV ⟨0, 0, 0⟩ ⟨0, 0, 0⟩ = 0 := distV_xaxis 0 le_rfl

/-- C6 counterexample: the source's Move case adds the raw mouse delta to
the local x and y components without converting it through the mesh
transform, so on a rotated mesh the vertex at the contact point moves to
(1/50, 0, 0), while the specified conversion of the delta into the mesh's
local axes would move it to (0, 1/50, 0). -/
theorem move_local_axes_cex :
    displaceVertex rotParams ⟨0, 0, 0⟩ = ⟨1/50, 0, 0⟩ ∧
    moveStep_spec rotParams ⟨0, 0, 0⟩ = ⟨0, 1/50, 0⟩ ∧
    displaceVertex rotParams ⟨0, 0, 0⟩ ≠ moveStep_spec rotParams ⟨0, 0, 0⟩ := by
  have e1 : displaceVertex rotParams ⟨0, 0, 0⟩ = ⟨1/50, 0, 0⟩ := by
    simp only [displaceVertex, rotParams_contact]
    rw [distV_origin]
    rw [if_pos (by norm_num [rotParams] : (0:ℝ) < rotParams.brushSize)]
    simp only [show rotParams.tool = Tool.MOVE from rfl]
    ext <;> norm_num [rotParams]
  have e2 : moveStep_spec rotParams ⟨0, 0, 0⟩ = ⟨0, 1/50, 0⟩ := by
    simp only [moveStep_spec, rotParams_contact]
    rw [distV_origin]
    rw [if_pos (by norm_num [rotParams] : (0:ℝ) < rotParams.brushSize)]
    ext <;> norm_num [rotParams, mat3Apply, vadd, smul]
  refine ⟨e1, e2, ?_⟩
  rw [e1, e2]
  intro hEq
  have hx := congrArg Vec3.x hEq
  norm_num at hx

/-- C6 amended: the Move displacement adds the raw cursor delta since the
previous mouse sample to the local x and y components (y negated), scaled
by strength * falloff and the damping constant 0.02, without converting
the delta through the mesh's transform; it is independent of the surface
normal, and when the cursor has not moved since the previous sample (as on
the first sample of a stroke, since pointer-down records the cursor) no
vertex moves. -/
theorem move_amended (p : SculptParams) (v : Vec3) (htool : p.tool = Tool.MOVE)
    (hin : distV v (localContact p) < p.brushSize) :
    displaceVertex p v
      = ⟨v.x + (p.mouse.x - p.lastMouse.x)
            * (p.brushStrength * (1 - distV v (localContact p) / p.brushSize) * 0.02),
         v.y - (p.mouse.y - p.lastMouse.y)
            * (p.brushStrength * (1 - distV v (localContact p) / p.brushSize) * 0.02),
         v.z⟩ ∧
    (∀ n2 : Option Vec3, displaceVertex { p with normal := n2 } v = displaceVertex p v) ∧
    (p.mouse = p.lastMouse → displaceVertex p v = v) := by
  refine ⟨?_, ?_, ?_⟩
  · simp only [displaceVertex, htool]
    rw [if_pos hin]
  · intro n2
    simp only [displaceVertex, htool, localContact]
  · intro hM
    simp only [displaceVertex, htool]
    by_cases h : distV v (localContact p) < p.brushSize
    · rw [if_pos h]
      ext <;> simp [hM]
    · rw [if_neg h]

/-- Move brush identical to rotParams but with a zero cursor delta. -/
def stillParams : SculptParams :=
  { rotParams with mouse := ⟨0, 0⟩ }

/-- Concrete instance of C6 (amended): with a zero cursor delta the Move
tool leaves the vertex at the contact point unchanged. -/
theorem move_amended_witness :
    stillParams.tool = Tool.MOVE ∧
    distV ⟨0, 0, 0⟩ (localContact stillParams) < stillParams.brushSize ∧
    stillParams.mouse = stillParams.lastMouse ∧
    displaceVertex stillParams ⟨0, 0, 0⟩ = ⟨0, 0, 0⟩ := by
  have hc : localContact stillParams = ⟨0, 0, 0⟩ := rotParams_contact
  have hin : distV ⟨0, 0, 0⟩ (localContact stillParams) < stillParams.brushSize := by
    rw [hc, distV_origin]
    norm_num [stillParams, rotParams]
  exact ⟨rfl, hin, rfl, (move_amended stillParams ⟨0, 0, 0⟩ rfl hin).2.2 rfl⟩

end Sculpt
